import Mathlib

/-
  Verification development for the stsh job-control shell (src/stsh.cc).

  The shallow embedding below translates the functions of stsh.cc into pure
  Lean functions.  OS side effects (kill, sigprocmask, tcsetpgrp, printing)
  are reified as an explicit `Action` trace; the results of `waitpid` calls
  performed by the SIGCHLD handler are supplied as an input list of
  (pid, wait-status) pairs; exceptions thrown via STSHException are
  modelled with `Except String`.

  The STSHJobList / STSHJob / STSHProcess classes live in headers that are
  not part of src/; their operations are modelled from the specification
  (sections 3 and 4.1) and are marked "Modelled from the spec" below.
-/

namespace Stsh

/-- Linux signal number for SIGINT. -/
def SIGINT : Int := 2

/-- Linux signal number for SIGCHLD. -/
def SIGCHLD : Int := 17

/-- Linux signal number for SIGCONT. -/
def SIGCONT : Int := 18

/-- Linux signal number for SIGTSTP. -/
def SIGTSTP : Int := 20

/-- Linux errno value for ENOTTY (inappropriate ioctl / not a terminal). -/
def ENOTTY : Int := 25

/-- Run-state of one process, as in stsh-process.h: Running, Stopped or
Terminated.  Modelled from the spec (section 3, Process). -/
inductive STSHProcessState
| kRunning
| kStopped
| kTerminated
deriving DecidableEq, Inhabited

/-- Scheduling class of a job: Foreground or Background.
Modelled from the spec (section 3, Job). -/
inductive STSHJobState
| kForeground
| kBackground
deriving DecidableEq, Inhabited

/-- One parsed command of a pipeline: program name plus argument tokens.
The token array of the C struct is NULL-terminated; absent tokens are
modelled by the end of the list. -/
structure command where
  command : String
  tokens : List String
deriving DecidableEq, Inhabited

/-- A parsed pipeline, as produced by the external parser: commands,
optional input/output redirection paths (empty string when absent) and the
background flag. -/
structure pipeline where
  commands : List command
  input : String := ""
  output : String := ""
  background : Bool := false
deriving DecidableEq, Inhabited

/-- One tracked OS process: immutable pid, mutable run-state, and the
command it was launched from.  Modelled from the spec (section 3). -/
structure STSHProcess where
  pid : Int
  state : STSHProcessState
  cmd : command
deriving DecidableEq, Inhabited

/-- A job: positive id, scheduling class, and the ordered sequence of owned
processes.  Modelled from the spec (section 3). -/
structure STSHJob where
  num : Nat
  state : STSHJobState
  processes : List STSHProcess
deriving DecidableEq, Inhabited

/-- The job list: the live jobs, in insertion order.
Modelled from the spec (section 3, JobList). -/
structure STSHJobList where
  jobs : List STSHJob
deriving DecidableEq, Inhabited

/-- Modelled from the spec: does this job own a process with the given pid. -/
def STSHJob.containsProcess (j : STSHJob) (pid : Int) : Bool :=
  j.processes.any (fun pr => pr.pid == pid)

/-- Modelled from the spec: set the state of the owned process with the
given pid. -/
def STSHJob.setProcessState (j : STSHJob) (pid : Int) (st : STSHProcessState) : STSHJob :=
  { j with processes := j.processes.map (fun pr => if pr.pid == pid then { pr with state := st } else pr) }

/-- Modelled from the spec: all owned processes have terminated. -/
def STSHJob.allTerminated (j : STSHJob) : Bool :=
  j.processes.all (fun pr => pr.state == STSHProcessState.kTerminated)

/-- Modelled from the spec (section 3): the derived display state of a job --
Running if any process is Running, else Stopped if any is Stopped, else
Terminated. -/
def STSHJob.derivedState (j : STSHJob) : STSHProcessState :=
  if j.processes.any (fun pr => pr.state == STSHProcessState.kRunning) then STSHProcessState.kRunning
  else if j.processes.any (fun pr => pr.state == STSHProcessState.kStopped) then STSHProcessState.kStopped
  else STSHProcessState.kTerminated

/-- Modelled from the spec: is the given (atoi-produced) job id one of the
live job ids. -/
def STSHJobList.containsJob (jl : STSHJobList) (jobid : Int) : Bool :=
  jl.jobs.any (fun j => (j.num : Int) == jobid)

/-- Modelled from the spec: look up a live job by id (NotFound = none). -/
def STSHJobList.getJob (jl : STSHJobList) (jobid : Int) : Option STSHJob :=
  jl.jobs.find? (fun j => (j.num : Int) == jobid)

/-- Modelled from the spec: does any live job own a process with this pid. -/
def STSHJobList.containsProcess (jl : STSHJobList) (pid : Int) : Bool :=
  jl.jobs.any (fun j => j.containsProcess pid)

/-- Modelled from the spec: the job owning the given pid (NotFound = none). -/
def STSHJobList.getJobWithProcess (jl : STSHJobList) (pid : Int) : Option STSHJob :=
  jl.jobs.find? (fun j => j.containsProcess pid)

/-- Modelled from the spec: whether some job has scheduling class Foreground. -/
def STSHJobList.hasForegroundJob (jl : STSHJobList) : Bool :=
  jl.jobs.any (fun j => j.state == STSHJobState.kForeground)

/-- Modelled from the spec: the foreground job, when one exists. -/
def STSHJobList.getForegroundJob (jl : STSHJobList) : Option STSHJob :=
  jl.jobs.find? (fun j => j.state == STSHJobState.kForeground)

/-- Is this candidate job id already in use. -/
def STSHJobList.usedNum (jl : STSHJobList) (n : Nat) : Bool :=
  jl.jobs.any (fun j => j.num == n)

/-- Modelled from the spec (section 3): id allocation picks the smallest
positive integer not currently in use.  Scanning candidates 1 .. length+1
always finds one. -/
def STSHJobList.freshNum (jl : STSHJobList) : Nat :=
  ((List.range (jl.jobs.length + 2)).filter (fun n => n != 0 && !(jl.usedNum n))).headD 1

/-- Modelled from the spec: add a new (empty) job with the given scheduling
class, allocating the smallest free positive id; returns the list and the
new id. -/
def STSHJobList.addJob (jl : STSHJobList) (st : STSHJobState) : STSHJobList × Nat :=
  let n := jl.freshNum
  ({ jobs := jl.jobs ++ [{ num := n, state := st, processes := [] }] }, n)

/-- Modelled from the spec: append a process to the job with the given id. -/
def STSHJobList.addProcess (jl : STSHJobList) (num : Nat) (pr : STSHProcess) : STSHJobList :=
  { jobs := jl.jobs.map (fun j => if j.num == num then { j with processes := j.processes ++ [pr] } else j) }

/-- Set the run-state of the process with the given pid inside the first
job that owns it (the C++ code mutates through the reference returned by
getJobWithProcess/getProcess). -/
def setProcessStateInJobs (pid : Int) (st : STSHProcessState) : List STSHJob → List STSHJob
  | [] => []
  | j :: rest =>
    if j.containsProcess pid then j.setProcessState pid st :: rest
    else j :: setProcessStateInJobs pid st rest

/-- Joblist-level process state update (first owning job). -/
def STSHJobList.setProcessState (jl : STSHJobList) (pid : Int) (st : STSHProcessState) : STSHJobList :=
  { jobs := setProcessStateInJobs pid st jl.jobs }

/-- Set the scheduling class of the job with the given id. -/
def setJobStateInJobs (num : Nat) (st : STSHJobState) : List STSHJob → List STSHJob
  | [] => []
  | j :: rest =>
    (if j.num == num then { j with state := st } else j) :: setJobStateInJobs num st rest

/-- Joblist-level scheduling-class update. -/
def STSHJobList.setJobState (jl : STSHJobList) (num : Nat) (st : STSHJobState) : STSHJobList :=
  { jobs := setJobStateInJobs num st jl.jobs }

/-- Modelled from the spec (section 4.1): synchronize re-derives the named
job aggregate state from its processes and, if every process has
Terminated, removes the job from the list (its id is thereby reclaimed and
the foreground slot freed if it held it). -/
def STSHJobList.synchronize (jl : STSHJobList) (num : Nat) : STSHJobList :=
  match jl.jobs.find? (fun j => j.num == num) with
  | none => jl
  | some j =>
    if j.allTerminated then { jobs := jl.jobs.filter (fun j2 => !(j2.num == num)) }
    else jl

/-- Result of one waitpid status: exited normally, killed by a signal,
stopped, or continued.  Exactly one of the WIF predicates holds of a real
status word. -/
inductive WStatus
| exited (code : Int)
| signaled (sig : Int)
| stopped (sig : Int)
| continued
deriving DecidableEq, Inhabited

/-- WIFEXITED of the modelled status. -/
def WIFEXITED : WStatus → Bool
  | .exited _ => true
  | _ => false

/-- WIFSIGNALED of the modelled status. -/
def WIFSIGNALED : WStatus → Bool
  | .signaled _ => true
  | _ => false

/-- WIFSTOPPED of the modelled status. -/
def WIFSTOPPED : WStatus → Bool
  | .stopped _ => true
  | _ => false

/-- WIFCONTINUED of the modelled status. -/
def WIFCONTINUED : WStatus → Bool
  | .continued => true
  | _ => false

/-- Embedding of changeProcessStatus (stsh.cc lines 308-314): find the job
that owns the pid, set the process state and synchronize the job.  The
failure of getJobWithProcess on an unowned pid is the NotFound failure the
spec prescribes for that lookup (section 4.1). -/
def changeProcessStatus (jl : STSHJobList) (pid : Int) (stat : STSHProcessState) :
    Except String STSHJobList :=
  match jl.getJobWithProcess pid with
  | none => .error ("NotFound: no job contains process " ++ toString pid)
  | some job => .ok ((jl.setProcessState pid stat).synchronize job.num)

/-- One iteration body of the SIGCHLD handler loop: the three successive
status tests of the source (the source combines the first two with a
bitwise or). -/
def handleStatus (jl : STSHJobList) (pid : Int) (st : WStatus) : Except String STSHJobList :=
  match (if WIFEXITED st || WIFSIGNALED st then changeProcessStatus jl pid STSHProcessState.kTerminated else .ok jl) with
  | .error e => .error e
  | .ok jl1 =>
    match (if WIFSTOPPED st then changeProcessStatus jl1 pid STSHProcessState.kStopped else .ok jl1) with
    | .error e => .error e
    | .ok jl2 => if WIFCONTINUED st then changeProcessStatus jl2 pid STSHProcessState.kRunning else .ok jl2

/-- Embedding of sigchildHandler (stsh.cc lines 324-333): repeatedly take
the next waitpid result (the input list holds the successive returns of
waitpid(-1, WNOHANG | WUNTRACED | WCONTINUED); an exhausted list stands for
waitpid returning 0), stop as soon as pid <= 0, otherwise dispatch on the
status.  -/
def sigchildHandler : STSHJobList → List (Int × WStatus) → Except String STSHJobList
  | jl, [] => .ok jl
  | jl, (pid, st) :: rest =>
    if pid ≤ 0 then .ok jl
    else
      match handleStatus jl pid st with
      | .error e => .error e
      | .ok jl1 => sigchildHandler jl1 rest

/-- The transition the claim prescribes for a reaped status: normal or
signaled exit to Terminated, stopped to Stopped, continued to Running.
This definition transcribes the wording of the specification (section 4.2)
for comparison against the embedded handler. -/
def specTransition : WStatus → STSHProcessState
  | .exited _ => STSHProcessState.kTerminated
  | .signaled _ => STSHProcessState.kTerminated
  | .stopped _ => STSHProcessState.kStopped
  | .continued => STSHProcessState.kRunning

/-- One spec-side reaping step: apply the prescribed transition to the
owning process, then synchronize the owning job (transcribed from the
wording of the specification, section 4.2). -/
def reaperSpecStep (jl : STSHJobList) (e : Int × WStatus) : STSHJobList :=
  match jl.getJobWithProcess e.1 with
  | none => jl
  | some job => (jl.setProcessState e.1 (specTransition e.2)).synchronize job.num

/-- Spec-side reaping of a whole batch of statuses, left to right. -/
def reaperSpecFold (jl : STSHJobList) (ws : List (Int × WStatus)) : STSHJobList :=
  ws.foldl reaperSpecStep jl

/-- A character the C library treats as whitespace. -/
def isCSpace (c : Char) : Bool :=
  c == ' ' || c == '\t' || c == '\n' || c == '\r' || c == '\x0b' || c == '\x0c'

/-- Drop leading C whitespace. -/
def dropCSpaces : List Char → List Char
  | [] => []
  | c :: rest => if isCSpace c then dropCSpaces rest else c :: rest

/-- Accumulate leading decimal digits, stopping at the first non-digit. -/
def digitsToInt : List Char → Int → Int
  | [], acc => acc
  | c :: rest, acc =>
    if c.isDigit then digitsToInt rest (acc * 10 + ((c.toNat - '0'.toNat : Nat) : Int))
    else acc

/-- Embedding of C atoi: skip whitespace, optional sign, then leading
digits; 0 when no digits are present.  (Overflow is undefined behaviour in
C and is not modelled.) -/
def atoi (s : String) : Int :=
  match dropCSpaces s.data with
  | '-' :: rest => - digitsToInt rest 0
  | '+' :: rest => digitsToInt rest 0
  | cs => digitsToInt cs 0

/-- Reified OS side effects performed by the shell code. -/
inductive Action
| kill (pid : Int) (sig : Int)
| blockSignals (sigs : List Int)
| unblockSignals (sigs : List Int)
| tcsetpgrp (pgid : Int)
deriving DecidableEq

/-- Is this action a terminal-ownership transfer. -/
def Action.isTcsetpgrp : Action → Bool
  | .tcsetpgrp _ => true
  | _ => false

/-- The signal set built by builtinFg and createJob before waiting:
SIGINT, SIGTSTP, SIGCONT and SIGCHLD (in sigaddset order). -/
def fgBlockedSigs : List Int := [SIGINT, SIGTSTP, SIGCONT, SIGCHLD]

/-- The argument tokens of the leading command of a pipeline
(pipeline.commands[0].tokens in the source). -/
def firstTokens (p : pipeline) : List String :=
  (p.commands.headD default).tokens

/-- Embedding of the branch of builtinFg after validation (stsh.cc lines
236-249): if the target job is already Foreground, send SIGCONT to every
member process; otherwise, if the job has at least one process, set its
class to Foreground and send SIGCONT to the negated pid of its first
process (the process-group id).  Returns the updated list and the kill
actions.  The none case is unreachable after the containsJob check. -/
def builtinFgBranch (jl : STSHJobList) (jobid : Int) : STSHJobList × List Action :=
  match jl.getJob jobid with
  | none => (jl, [])
  | some job =>
    if job.state == STSHJobState.kForeground then
      (jl, job.processes.map (fun pr => Action.kill pr.pid SIGCONT))
    else
      match job.processes with
      | [] => (jl, [])
      | pr0 :: _ => (jl.setJobState job.num STSHJobState.kForeground, [Action.kill (-pr0.pid) SIGCONT])

/-- Embedding of the wait loop of builtinFg (stsh.cc line 250):
while the job list has a foreground job, sigsuspend; each suspension
delivers one batch of waitpid results processed by the SIGCHLD handler.
Returns none when the supplied batches run out while a foreground job
remains (the loop would still be suspended). -/
def fgWaitLoop : STSHJobList → List (List (Int × WStatus)) → Except String (Option STSHJobList)
  | jl, [] => if jl.hasForegroundJob then .ok none else .ok (some jl)
  | jl, b :: rest =>
    if jl.hasForegroundJob then
      match sigchildHandler jl b with
      | .error e => .error e
      | .ok jl1 => fgWaitLoop jl1 rest
    else .ok (some jl)

/-- Embedding of builtinFg (stsh.cc lines 218-252): argument validation,
blocking of SIGINT/SIGTSTP/SIGCONT/SIGCHLD, the branch on the target job
class, the sigsuspend loop until no foreground job remains, and the final
unblock.  The result carries the final job list and the action trace;
none means the wait never ended within the supplied batches.  (The source
also prints a debug line before the No-such-job throw; output of the error
path is not modelled.) -/
def builtinFg (jl : STSHJobList) (p : pipeline) (events : List (List (Int × WStatus))) :
    Except String (Option (STSHJobList × List Action)) :=
  match (firstTokens p).head? with
  | none => .error "Usage: fg <jobid>."
  | some arg =>
    if arg == "0" then .error "fg 0: No such job."
    else
      if atoi arg == 0 then .error "Usage: fg <jobid>."
      else if !(jl.containsJob (atoi arg)) then .error ("fg " ++ toString (atoi arg) ++ ": No such job.")
      else
        let res := builtinFgBranch jl (atoi arg)
        match fgWaitLoop res.1 events with
        | .error e => .error e
        | .ok none => .ok none
        | .ok (some jl2) =>
          .ok (some (jl2, Action.blockSignals fgBlockedSigs :: (res.2 ++ [Action.unblockSignals fgBlockedSigs])))

/-- Embedding of builtinBg (stsh.cc lines 254-268): the same validation as
builtinFg (including its fg-labelled diagnostics), then SIGCONT to every
member process of the target job; no blocking, no waiting, no terminal
transfer, and the job list is left untouched. -/
def builtinBg (jl : STSHJobList) (p : pipeline) : Except String (STSHJobList × List Action) :=
  match (firstTokens p).head? with
  | none => .error "Usage: bg <jobid>."
  | some arg =>
    if arg == "0" then .error "fg 0: No such job."
    else
      if atoi arg == 0 then .error "Usage: fg <jobid>."
      else if !(jl.containsJob (atoi arg)) then .error ("fg " ++ toString (atoi arg) ++ ": No such job.")
      else
        match jl.getJob (atoi arg) with
        | none => .error ("fg " ++ toString (atoi arg) ++ ": No such job.")
        | some job => .ok (jl, job.processes.map (fun pr => Action.kill pr.pid SIGCONT))

/-- Embedding of builtinSignals (stsh.cc lines 270-288).  One numeric
argument: a literal pid that the job list must track, else the
No-process-with-pid failure.  Two arguments: a job id and a zero-based
index; an unknown job id gives the No-job failure; the C comparison
arg2_int >= processes.size() converts the int to size_t, so a negative
index also takes the out-of-range failure.  On success the resolved pid is
sent the given signal. -/
def builtinSignals (jl : STSHJobList) (p : pipeline) (cmdName : String) (sig : Int) :
    Except String (List Action) :=
  let toks := firstTokens p
  match toks.head? with
  | none => .error ("Usage: " ++ cmdName ++ " <jobid> <index> | <pid>.")
  | some arg1 =>
    let arg1Int := atoi arg1
    match toks.get? 1 with
    | none =>
      if !(jl.containsProcess arg1Int) then .error ("No process with pid " ++ toString arg1Int)
      else .ok [Action.kill arg1Int sig]
    | some arg2 =>
      let arg2Int := atoi arg2
      if !(jl.containsJob arg1Int) then .error ("No job with id " ++ toString arg1Int)
      else
        match jl.getJob arg1Int with
        | none => .error ("No job with id " ++ toString arg1Int)
        | some job =>
          if arg2Int < 0 ∨ (job.processes.length : Int) ≤ arg2Int then
            .error ("Job " ++ toString arg1Int ++ "doesn\x27t have a pid at index " ++ toString arg2Int)
          else
            match job.processes.get? arg2Int.toNat with
            | none => .error ("Job " ++ toString arg1Int ++ "doesn\x27t have a pid at index " ++ toString arg2Int)
            | some proc =>
              if !(job.containsProcess proc.pid) then
                .error ("Job " ++ toString arg1Int ++ "doesn\x27t have a pid at index " ++ toString arg2Int)
              else .ok [Action.kill proc.pid sig]

/-- Embedding of the slay/halt/cont dispatch rows of handleBuiltin
(stsh.cc lines 208-210): slay sends SIGINT, halt sends SIGTSTP, cont sends
SIGCONT; other leading commands are not dispatched here. -/
def handleBuiltinSignals (jl : STSHJobList) (p : pipeline) : Option (Except String (List Action)) :=
  match p.commands.head? with
  | none => none
  | some c =>
    if c.command == "slay" then some (builtinSignals jl p "slay" SIGINT)
    else if c.command == "halt" then some (builtinSignals jl p "halt" SIGTSTP)
    else if c.command == "cont" then some (builtinSignals jl p "cont" SIGCONT)
    else none

/-- Embedding of sigIntStopHandler (stsh.cc lines 315-322): when a
foreground job exists, send the delivered signal to each of its member
processes by pid, one kill per process. -/
def sigIntStopHandler (jl : STSHJobList) (sig : Int) : List Action :=
  if jl.hasForegroundJob then
    match jl.getForegroundJob with
    | none => []
    | some job => job.processes.map (fun pr => Action.kill pr.pid sig)
  else []

/-- The two outcomes of the tcsetpgrp call: success, or failure with the
given errno. -/
inductive TcResult
| success
| failure (errno : Int)
deriving DecidableEq, Inhabited

/-- Embedding of transferTerminalControl (stsh.cc lines 416-421): a failed
tcsetpgrp raises the TerminalControlError diagnostic unless errno is
ENOTTY, in which case the failure is suppressed. -/
def transferTerminalControl : TcResult → Except String Unit
  | .success => .ok ()
  | .failure e => if e != ENOTTY then .error "tcsetpgrp: A serious problem happens" else .ok ()

/-- One end of a pipe created by createJob: (k, rd) and (k, wr) stand for
fds[k][0] and fds[k][1]. -/
inductive PipeEnd
| rd
| wr
deriving DecidableEq, Inhabited

/-- The closes performed by the child cleanup loop of createJob (stsh.cc
lines 373-375): the loop runs once per pipe but its body closes
fds[i][0] and fds[i][1] -- the indices use the forking loop variable i,
not the cleanup loop variable t.  (As written the bound reads
t.commands.size(), which does not even compile; the evident intent,
p.commands.size(), is used for the bound here, while the body is kept
exactly as in the source.) -/
def childLoopCloses : Nat → Nat → List (Nat × PipeEnd)
  | 0, _ => []
  | t + 1, i => (i, PipeEnd.rd) :: (i, PipeEnd.wr) :: childLoopCloses t i

/-- All pipe-descriptor closes performed in child i of an n-command
pipeline before exec (stsh.cc lines 357-375): the close after the stdin
dup2 (fds[i-1][0] for i > 0), the close after the stdout dup2 (fds[i][1]
for a non-last command), then the cleanup loop. -/
def childPipeCloses (n i : Nat) : List (Nat × PipeEnd) :=
  (if 0 < i then [(i - 1, PipeEnd.rd)] else [])
    ++ (if i + 1 < n then [(i, PipeEnd.wr)] else [])
    ++ childLoopCloses (n - 1) i

/-- Whether child i of an n-command pipeline needs the given pipe
descriptor for its own stdin/stdout wiring: a non-first command reads from
fds[i-1][0], a non-last command writes to fds[i][1]; it needs no other
pipe descriptor, and the specification (section 4.3) requires every
unneeded pipe descriptor to be closed in that child. -/
def childNeedsPipeFd (n i : Nat) (fd : Nat × PipeEnd) : Bool :=
  match fd.2 with
  | PipeEnd.rd => 0 < i && fd.1 == i - 1
  | PipeEnd.wr => i + 1 < n && fd.1 == i

/-- The pipe descriptors createJob actually creates for an n-command
pipeline: pipes 0 .. n-2, read and write end each. -/
def allPipeFds (n : Nat) : List (Nat × PipeEnd) :=
  (List.range (n - 1)).foldr (fun k acc => (k, PipeEnd.rd) :: (k, PipeEnd.wr) :: acc) []

/-- Embedding of the synchronous part of createJob (stsh.cc lines
344-355): add a job whose class is Background exactly when the pipeline
asked for background, then, for each command in order, record the forked
pid as a new Running process of that job.  The pids of the forked children
are an input.  Returns the list and the new job id. -/
def addProcessList : STSHJobList → Nat → List (command × Int) → STSHJobList
  | jl, _, [] => jl
  | jl, n, (c, pid) :: rest =>
    addProcessList (jl.addProcess n { pid := pid, state := STSHProcessState.kRunning, cmd := c }) n rest

/-- The job-list effect of launching a pipeline: addJob with the requested
class, then one addProcess per forked command. -/
def createJobSync (jl : STSHJobList) (p : pipeline) (pids : List Int) : STSHJobList × Nat :=
  let res := jl.addJob (if p.background then STSHJobState.kBackground else STSHJobState.kForeground)
  (addProcessList res.1 res.2 (p.commands.zip pids), res.2)

/-- The first foreground job number, when a foreground job exists
(getForegroundJob().getNum() in the source). -/
def fgNum (jl : STSHJobList) : Option Nat :=
  jl.getForegroundJob.map (fun j => j.num)

/-- Where the shell main flow currently stands: at the prompt, inside the
createJob wait loop for job n (stsh.cc line 400), or inside the builtinFg
wait loop (stsh.cc line 250). -/
inductive ShellPhase
| atPrompt
| inLaunchWait (n : Nat)
| inFgWait
deriving DecidableEq, Inhabited

/-- A shell state: the job list plus the position of the main flow. -/
structure ShellState where
  jl : STSHJobList
  phase : ShellPhase
deriving DecidableEq, Inhabited

/-- Small-step transitions of the shell, as implemented in stsh.cc.  The
SIGCHLD handler may run at any point (reap steps); the launcher and the
fg builtin move between the prompt and their wait loops with exactly the
loop conditions of the source. -/
inductive ShellStep : ShellState → ShellState → Prop
| reapPrompt (jl : STSHJobList) (b : List (Int × WStatus)) (jl1 : STSHJobList) :
    sigchildHandler jl b = .ok jl1 →
    ShellStep ⟨jl, ShellPhase.atPrompt⟩ ⟨jl1, ShellPhase.atPrompt⟩
| launchBg (jl : STSHJobList) (p : pipeline) (pids : List Int) (jl1 : STSHJobList) (n : Nat) :
    p.background = true →
    createJobSync jl p pids = (jl1, n) →
    ShellStep ⟨jl, ShellPhase.atPrompt⟩ ⟨jl1, ShellPhase.atPrompt⟩
| launchFg (jl : STSHJobList) (p : pipeline) (pids : List Int) (jl1 : STSHJobList) (n : Nat) :
    p.background = false →
    createJobSync jl p pids = (jl1, n) →
    ShellStep ⟨jl, ShellPhase.atPrompt⟩ ⟨jl1, ShellPhase.inLaunchWait n⟩
| launchWaitReap (jl : STSHJobList) (n : Nat) (b : List (Int × WStatus)) (jl1 : STSHJobList) :
    sigchildHandler jl b = .ok jl1 →
    ShellStep ⟨jl, ShellPhase.inLaunchWait n⟩ ⟨jl1, ShellPhase.inLaunchWait n⟩
| launchWaitExit (jl : STSHJobList) (n : Nat) :
    ¬(jl.hasForegroundJob = true ∧ fgNum jl = some n) →
    ShellStep ⟨jl, ShellPhase.inLaunchWait n⟩ ⟨jl, ShellPhase.atPrompt⟩
| fgStart (jl : STSHJobList) (jobid : Int) :
    jl.containsJob jobid = true →
    ShellStep ⟨jl, ShellPhase.atPrompt⟩ ⟨(builtinFgBranch jl jobid).1, ShellPhase.inFgWait⟩
| fgWaitReap (jl : STSHJobList) (b : List (Int × WStatus)) (jl1 : STSHJobList) :
    sigchildHandler jl b = .ok jl1 →
    ShellStep ⟨jl, ShellPhase.inFgWait⟩ ⟨jl1, ShellPhase.inFgWait⟩
| fgWaitExit (jl : STSHJobList) :
    jl.hasForegroundJob = false →
    ShellStep ⟨jl, ShellPhase.inFgWait⟩ ⟨jl, ShellPhase.atPrompt⟩
| bgRun (jl : STSHJobList) (p : pipeline) (jl1 : STSHJobList) (acts : List Action) :
    builtinBg jl p = .ok (jl1, acts) →
    ShellStep ⟨jl, ShellPhase.atPrompt⟩ ⟨jl1, ShellPhase.atPrompt⟩

/-- States the shell can reach from start-up (empty job list, at the
prompt). -/
inductive ShellReachable : ShellState → Prop
| init : ShellReachable ⟨⟨[]⟩, ShellPhase.atPrompt⟩
| step (s s1 : ShellState) : ShellReachable s → ShellStep s s1 → ShellReachable s1

/-- Number of jobs whose scheduling class is Foreground. -/
def fgCount (jl : STSHJobList) : Nat :=
  jl.jobs.countP (fun j => j.state == STSHJobState.kForeground)

/-- The at-most-one-foreground-job invariant of the specification. -/
def atMostOneForeground (jl : STSHJobList) : Prop :=
  fgCount jl ≤ 1

/-- The live job ids are pairwise distinct. -/
def nodupNums (jl : STSHJobList) : Prop :=
  (jl.jobs.map (fun j => j.num)).Nodup

/-- The identity-and-class signature of a job: its id together with its
scheduling class.  Reaping can change process states and delete jobs but
never changes this signature of a surviving job. -/
def jobSig (j : STSHJob) : Nat × STSHJobState :=
  (j.num, j.state)

/-- A command fixture used by the concrete witnesses below. -/
def cmdSleep : command :=
  { command := "sleep", tokens := ["100"] }

/-- A running process fixture with the given pid. -/
def prRun (pid : Int) : STSHProcess :=
  { pid := pid, state := STSHProcessState.kRunning, cmd := cmdSleep }

/-- Fixture: one background job (id 1) with a single running process 100. -/
def jlOneBg : STSHJobList :=
  ⟨[{ num := 1, state := STSHJobState.kBackground, processes := [prRun 100] }]⟩

/-- Fixture: one foreground job (id 1) with running processes 100, 101. -/
def jlTwoFg : STSHJobList :=
  ⟨[{ num := 1, state := STSHJobState.kForeground, processes := [prRun 100, prRun 101] }]⟩

/-- Fixture: the builtin invocation fg 1. -/
def fgPipe1 : pipeline :=
  { commands := [{ command := "fg", tokens := ["1"] }] }

/-- Fixture: the builtin invocation bg with no argument. -/
def bgPipeNoArg : pipeline :=
  { commands := [{ command := "bg", tokens := [] }] }

/-- Fixture: the builtin invocation bg 1. -/
def bgPipe1 : pipeline :=
  { commands := [{ command := "bg", tokens := ["1"] }] }

/-- Fixture: the builtin invocation slay 100. -/
def slayPipe100 : pipeline :=
  { commands := [{ command := "slay", tokens := ["100"] }] }

/-- The action trace of the fg 1 run used as the C2 counterexample. -/
def fgTraceC2 : List Action :=
  [Action.blockSignals fgBlockedSigs, Action.kill (-100) SIGCONT, Action.unblockSignals fgBlockedSigs]

/-- Fixture: a one-command foreground pipeline. -/
def pipeSleep : pipeline :=
  { commands := [cmdSleep] }

/-- Fixture: the process forked for pipeSleep with pid 42. -/
def prSleep42 : STSHProcess :=
  { pid := 42, state := STSHProcessState.kRunning, cmd := cmdSleep }

/-- Fixture: the job list right after launching pipeSleep as job 1 with
forked pid 42. -/
def jlFg42 : STSHJobList :=
  ⟨[{ num := 1, state := STSHJobState.kForeground, processes := [prSleep42] }]⟩

/-- Is this action a kill. -/
def Action.isKill : Action → Bool
  | .kill _ _ => true
  | _ => false

/-- The inductive invariant carried through the shell transition system:
job ids stay distinct, the prompt is only reached with no foreground job,
the launcher wait can only see its own job in the foreground slot, and the
fg-builtin wait sees at most one foreground job. -/
def shellInv : ShellState → Prop
  | ⟨jl, ShellPhase.atPrompt⟩ => fgCount jl = 0 ∧ nodupNums jl
  | ⟨jl, ShellPhase.inLaunchWait n⟩ =>
      (∀ j ∈ jl.jobs, j.state = STSHJobState.kForeground → j.num = n) ∧ nodupNums jl
  | ⟨jl, ShellPhase.inFgWait⟩ => fgCount jl ≤ 1 ∧ nodupNums jl

/-! Support lemmas about the job-list lookups. -/

theorem getForegroundJob_state {jl : STSHJobList} {j : STSHJob}
    (h : jl.getForegroundJob = some j) : j.state = STSHJobState.kForeground := by
  have hp := List.find?_some h
  simpa using hp

theorem getForegroundJob_mem {jl : STSHJobList} {j : STSHJob}
    (h : jl.getForegroundJob = some j) : j ∈ jl.jobs :=
  List.mem_of_find?_eq_some h

theorem hasForegroundJob_of_getForegroundJob {jl : STSHJobList} {j : STSHJob}
    (h : jl.getForegroundJob = some j) : jl.hasForegroundJob = true := by
  unfold STSHJobList.hasForegroundJob
  rw [List.any_eq_true]
  exact ⟨j, getForegroundJob_mem h, by simp [getForegroundJob_state h]⟩

theorem getJobWithProcess_eq_none {jl : STSHJobList} {pid : Int}
    (h : jl.containsProcess pid = false) : jl.getJobWithProcess pid = none := by
  unfold STSHJobList.getJobWithProcess
  rw [List.find?_eq_none]
  unfold STSHJobList.containsProcess at h
  rw [List.any_eq_false] at h
  exact h

theorem containsJob_of_getJob_some {jl : STSHJobList} {jobid : Int} {job : STSHJob}
    (h : jl.getJob jobid = some job) : jl.containsJob jobid = true := by
  unfold STSHJobList.getJob at h
  unfold STSHJobList.containsJob
  rw [List.any_eq_true]
  have hp := List.find?_some h
  exact ⟨job, List.mem_of_find?_eq_some h, hp⟩

theorem changeProcessStatus_not_owned {jl : STSHJobList} {pid : Int} (stat : STSHProcessState)
    (h : jl.containsProcess pid = false) :
    changeProcessStatus jl pid stat = .error ("NotFound: no job contains process " ++ toString pid) := by
  unfold changeProcessStatus
  rw [getJobWithProcess_eq_none h]

/-- C9: a failed terminal-ownership transfer raises the
TerminalControlError diagnostic exactly when errno is not ENOTTY; the
ENOTTY failure is suppressed, and a successful call reports nothing. -/
theorem C9_terminal_control (e : Int) :
    (transferTerminalControl (TcResult.failure e) = .ok () ↔ e = ENOTTY)
    ∧ (e ≠ ENOTTY →
        transferTerminalControl (TcResult.failure e) = .error "tcsetpgrp: A serious problem happens")
    ∧ transferTerminalControl TcResult.success = .ok () := by
  refine ⟨⟨?_, ?_⟩, ?_, rfl⟩
  · intro hok
    by_contra hne
    simp [transferTerminalControl, hne] at hok
  · intro he
    simp [transferTerminalControl, he]
  · intro hne
    simp [transferTerminalControl, hne]

theorem C9_witness :
    transferTerminalControl (TcResult.failure 7) = .error "tcsetpgrp: A serious problem happens" :=
  (C9_terminal_control 7).2.1 (by decide)

/-- C4: in a three-command pipeline the read end of pipe 1 is needed by
neither dup2 of child 0, yet child 0 never closes it: the cleanup loop of
the source closes fds[i] (the forking index) on every iteration instead of
fds[t], so all descriptors of every other pipe leak into the child.
This evaluates the embedded close-set at the failing input. -/
theorem C4_pipe_close_bug :
    childNeedsPipeFd 3 0 (1, PipeEnd.rd) = false
    ∧ (1, PipeEnd.rd) ∈ allPipeFds 3
    ∧ ¬ ((1, PipeEnd.rd) ∈ childPipeCloses 3 0)
    ∧ childPipeCloses 3 0 =
        [(0, PipeEnd.wr), (0, PipeEnd.rd), (0, PipeEnd.wr), (0, PipeEnd.rd), (0, PipeEnd.wr)] := by
  refine ⟨rfl, by decide, by decide, rfl⟩

/-- C5 counterexample: with a foreground job of processes 100 and 101, the
SIGINT/SIGTSTP handler emits one kill per member pid, every target pid
positive; there is no single kill of a negated process-group id. -/
theorem C5_counterexample :
    sigIntStopHandler jlTwoFg SIGINT = [Action.kill 100 SIGINT, Action.kill 101 SIGINT]
    ∧ (sigIntStopHandler jlTwoFg SIGINT).all
        (fun a => match a with | Action.kill p _ => decide (0 < p) | _ => false) = true :=
  ⟨rfl, rfl⟩

/-- C5 amended: when a foreground job exists, the shell forwards the
delivered signal to every member process of that job individually, one
kill per member pid (not a single kill of the negated process-group id). -/
theorem C5_individual_kills (jl : STSHJobList) (sig : Int) (job : STSHJob)
    (h : jl.getForegroundJob = some job) :
    sigIntStopHandler jl sig = job.processes.map (fun pr => Action.kill pr.pid sig) := by
  simp [sigIntStopHandler, hasForegroundJob_of_getForegroundJob h, h]

theorem C5_witness :
    sigIntStopHandler jlTwoFg SIGTSTP = [Action.kill 100 SIGTSTP, Action.kill 101 SIGTSTP] :=
  C5_individual_kills jlTwoFg SIGTSTP
    { num := 1, state := STSHJobState.kForeground, processes := [prRun 100, prRun 101] } rfl

/-- C6 counterexample: reaping pid 200, which no job owns, makes the
handler raise the NotFound failure of getJobWithProcess instead of
dropping the notification silently. -/
theorem C6_counterexample :
    sigchildHandler jlOneBg [(200, WStatus.exited 0)] =
      .error "NotFound: no job contains process 200" :=
  rfl

/-- C6 amended: if the reaper collects a positive pid that no job in the
job list owns, the owning-job lookup inside changeProcessStatus fails with
NotFound and the handler raises that error; the notification is not
silently dropped. -/
theorem C6_unowned_pid_raises (jl : STSHJobList) (pid : Int) (st : WStatus)
    (rest : List (Int × WStatus)) (hpos : 0 < pid) (hun : jl.containsProcess pid = false) :
    sigchildHandler jl ((pid, st) :: rest) =
      .error ("NotFound: no job contains process " ++ toString pid) := by
  have hnle : ¬ pid ≤ 0 := by omega
  cases st <;>
    simp [sigchildHandler, hnle, handleStatus, WIFEXITED, WIFSIGNALED, WIFSTOPPED, WIFCONTINUED,
      changeProcessStatus_not_owned _ hun]

theorem C6_witness :
    0 < (200 : Int)
    ∧ jlOneBg.containsProcess 200 = false
    ∧ sigchildHandler jlOneBg [(200, WStatus.stopped 19)] =
        .error "NotFound: no job contains process 200" :=
  ⟨by decide, rfl, C6_unowned_pid_raises jlOneBg 200 (WStatus.stopped 19) [] (by decide) rfl⟩

/-! The reaper: its per-status step agrees with the transition the
specification prescribes, and the loop stops at the first non-positive
waitpid return. -/

theorem handleStatus_eq (jl : STSHJobList) (pid : Int) (st : WStatus) :
    handleStatus jl pid st = changeProcessStatus jl pid (specTransition st) := by
  cases st with
  | exited c =>
    cases hc : changeProcessStatus jl pid STSHProcessState.kTerminated <;>
      simp [handleStatus, WIFEXITED, WIFSIGNALED, WIFSTOPPED, WIFCONTINUED, specTransition, hc]
  | signaled s =>
    cases hc : changeProcessStatus jl pid STSHProcessState.kTerminated <;>
      simp [handleStatus, WIFEXITED, WIFSIGNALED, WIFSTOPPED, WIFCONTINUED, specTransition, hc]
  | stopped s =>
    cases hc : changeProcessStatus jl pid STSHProcessState.kStopped <;>
      simp [handleStatus, WIFEXITED, WIFSIGNALED, WIFSTOPPED, WIFCONTINUED, specTransition, hc]
  | continued =>
    cases hc : changeProcessStatus jl pid STSHProcessState.kRunning <;>
      simp [handleStatus, WIFEXITED, WIFSIGNALED, WIFSTOPPED, WIFCONTINUED, specTransition, hc]

theorem handleStatus_ok {jl jl1 : STSHJobList} {pid : Int} {st : WStatus}
    (h : handleStatus jl pid st = .ok jl1) : jl1 = reaperSpecStep jl (pid, st) := by
  have hred : changeProcessStatus jl pid (specTransition st) = .ok jl1 := by
    rw [← handleStatus_eq]
    exact h
  unfold changeProcessStatus at hred
  unfold reaperSpecStep
  cases hg : jl.getJobWithProcess pid with
  | none => rw [hg] at hred; cases hred
  | some job =>
    rw [hg] at hred
    cases hred
    rfl

theorem sigchildHandler_ok_spec : ∀ (ws : List (Int × WStatus)) (jl jl1 : STSHJobList),
    ws.all (fun e => decide (0 < e.1)) = true → sigchildHandler jl ws = .ok jl1 →
    jl1 = reaperSpecFold jl ws := by
  intro ws
  induction ws with
  | nil =>
    intro jl jl1 _ h
    cases h
    rfl
  | cons e rest ih =>
    intro jl jl1 hall h
    obtain ⟨pid, st⟩ := e
    simp only [List.all_cons, Bool.and_eq_true] at hall
    have hpos : 0 < pid := by simpa using hall.1
    have hrest := hall.2
    have hnle : ¬ pid ≤ 0 := by omega
    unfold sigchildHandler at h
    rw [if_neg hnle] at h
    cases hh : handleStatus jl pid st with
    | error e => rw [hh] at h; cases h
    | ok jlm =>
      rw [hh] at h
      have hstep := handleStatus_ok hh
      have : reaperSpecFold jl ((pid, st) :: rest) = reaperSpecFold (reaperSpecStep jl (pid, st)) rest := rfl
      rw [this, ← hstep]
      exact ih jlm jl1 hrest h

theorem sigchildHandler_stops : ∀ (ws1 : List (Int × WStatus)) (jl : STSHJobList)
    (e : Int × WStatus) (ws2 : List (Int × WStatus)),
    ws1.all (fun x => decide (0 < x.1)) = true → e.1 ≤ 0 →
    sigchildHandler jl (ws1 ++ e :: ws2) = sigchildHandler jl ws1 := by
  intro ws1
  induction ws1 with
  | nil =>
    intro jl e ws2 _ hle
    obtain ⟨pid, st⟩ := e
    simp only [List.nil_append, sigchildHandler]
    rw [if_pos hle]
  | cons q rest ih =>
    intro jl e ws2 hall hle
    obtain ⟨qpid, qst⟩ := q
    simp only [List.all_cons, Bool.and_eq_true] at hall
    have hpos : 0 < qpid := by simpa using hall.1
    have hrest := hall.2
    have hnle : ¬ qpid ≤ 0 := by omega
    simp only [List.cons_append, sigchildHandler]
    rw [if_neg hnle, if_neg hnle]
    cases hh : handleStatus jl qpid qst with
    | error e2 => rfl
    | ok jlm => exact ih jlm e ws2 hrest hle

/-- C1: on each invocation the SIGCHLD handler drains the successive
waitpid(-1, WNOHANG | WUNTRACED | WCONTINUED) results until a
non-positive pid stops it (second conjunct), and for every reaped pid the
resulting job list is exactly the fold of the spec-prescribed transition
(normal or signaled exit to Terminated, stopped to Stopped, continued to
Running) applied to the owning process followed by synchronize on the
owning job (first conjunct). -/
theorem C1_reaper :
    (∀ (ws : List (Int × WStatus)) (jl jl1 : STSHJobList),
        ws.all (fun e => decide (0 < e.1)) = true → sigchildHandler jl ws = .ok jl1 →
        jl1 = reaperSpecFold jl ws)
    ∧ (∀ (ws1 : List (Int × WStatus)) (jl : STSHJobList) (e : Int × WStatus)
        (ws2 : List (Int × WStatus)),
        ws1.all (fun x => decide (0 < x.1)) = true → e.1 ≤ 0 →
        sigchildHandler jl (ws1 ++ e :: ws2) = sigchildHandler jl ws1) :=
  ⟨sigchildHandler_ok_spec, sigchildHandler_stops⟩

theorem C1_witness :
    ([((100 : Int), WStatus.exited 0)].all (fun e => decide (0 < e.1)) = true)
    ∧ (⟨[]⟩ : STSHJobList) = reaperSpecFold jlOneBg [(100, WStatus.exited 0)] :=
  ⟨rfl, C1_reaper.1 [(100, WStatus.exited 0)] jlOneBg ⟨[]⟩ rfl rfl⟩

/-! The fg builtin. -/

theorem fgWaitLoop_ok_some : ∀ (events : List (List (Int × WStatus))) (jl jl2 : STSHJobList),
    fgWaitLoop jl events = .ok (some jl2) → jl2.hasForegroundJob = false := by
  intro events
  induction events with
  | nil =>
    intro jl jl2 h
    unfold fgWaitLoop at h
    cases hf : jl.hasForegroundJob with
    | true => rw [hf] at h; simp at h
    | false => rw [hf] at h; simp at h; rw [← h]; exact hf
  | cons b rest ih =>
    intro jl jl2 h
    unfold fgWaitLoop at h
    cases hf : jl.hasForegroundJob with
    | true =>
      rw [hf] at h
      simp only [if_pos] at h
      cases hh : sigchildHandler jl b with
      | error e => rw [hh] at h; cases h
      | ok jlm => rw [hh] at h; exact ih jlm jl2 h
    | false =>
      rw [hf] at h
      simp at h
      rw [← h]
      exact hf

theorem builtinFgBranch_kills (jl : STSHJobList) (jobid : Int) :
    ((builtinFgBranch jl jobid).2).all (fun a => a.isKill) = true := by
  unfold builtinFgBranch
  cases jl.getJob jobid with
  | none => rfl
  | some job =>
    by_cases hst : (job.state == STSHJobState.kForeground) = true
    · simp only [hst, if_pos]
      rw [List.all_eq_true]
      intro a ha
      obtain ⟨pr, _, hpr⟩ := List.mem_map.mp ha
      rw [← hpr]
      rfl
    · simp only [hst, if_neg, Bool.false_eq_true, not_false_eq_true]
      cases job.processes with
      | nil => rfl
      | cons pr0 prs => rfl

/-- C2 counterexample: a successful fg 1 run on a background job (promote
branch, ending when the job terminates) produces exactly a block, the
negated-pgid SIGCONT kill and an unblock; its trace contains no
terminal-ownership transfer at all, although the claim requires one after
the promotion and another after the wait. -/
theorem C2_counterexample :
    builtinFg jlOneBg fgPipe1 [[(100, WStatus.exited 0)]] = .ok (some (⟨[]⟩, fgTraceC2))
    ∧ fgTraceC2.all (fun a => !(a.isTcsetpgrp)) = true :=
  ⟨rfl, rfl⟩

/-- C2 amended: for the builtin fg with a valid job id, SIGINT, SIGTSTP,
SIGCONT and SIGCHLD are blocked; if the target job is already Foreground,
SIGCONT is sent to every member process individually; otherwise, when the
job has at least one process, the job is promoted to Foreground and
SIGCONT is sent to the negated process-group id; the shell then suspends
until no job occupies the foreground slot and unblocks the signals; no
terminal-ownership transfer is performed in either direction. -/
theorem C2_fg_behaviour (jl : STSHJobList) (p : pipeline) (events : List (List (Int × WStatus)))
    (a : String) (rest : List String) (job : STSHJob) (jl2 : STSHJobList) (tr : List Action)
    (h1 : firstTokens p = a :: rest) (h2 : a ≠ "0") (h3 : atoi a ≠ 0)
    (h4 : jl.getJob (atoi a) = some job)
    (h5 : builtinFg jl p events = .ok (some (jl2, tr))) :
    tr = Action.blockSignals fgBlockedSigs ::
        ((builtinFgBranch jl (atoi a)).2 ++ [Action.unblockSignals fgBlockedSigs])
    ∧ (job.state = STSHJobState.kForeground →
        builtinFgBranch jl (atoi a) = (jl, job.processes.map (fun pr => Action.kill pr.pid SIGCONT)))
    ∧ (job.state ≠ STSHJobState.kForeground → ∀ pr0 prs, job.processes = pr0 :: prs →
        builtinFgBranch jl (atoi a) =
          (jl.setJobState job.num STSHJobState.kForeground, [Action.kill (-pr0.pid) SIGCONT]))
    ∧ jl2.hasForegroundJob = false
    ∧ tr.all (fun act => !(act.isTcsetpgrp)) = true := by
  have hhead : (firstTokens p).head? = some a := by rw [h1]; rfl
  have hz : (a == "0") = false := by simpa using h2
  have hjz : (atoi a == 0) = false := by simpa using h3
  have hcj : jl.containsJob (atoi a) = true := containsJob_of_getJob_some h4
  unfold builtinFg at h5
  rw [hhead] at h5
  simp only [hz, hjz, hcj, Bool.false_eq_true, if_neg, Bool.not_true, not_false_eq_true,
    Bool.not_false, if_true, if_false] at h5
  cases hw : fgWaitLoop (builtinFgBranch jl (atoi a)).1 events with
  | error e => rw [hw] at h5; cases h5
  | ok r =>
    rw [hw] at h5
    cases r with
    | none => simp at h5
    | some jlr =>
      simp only [Except.ok.injEq, Option.some.injEq, Prod.mk.injEq] at h5
      obtain ⟨hjl2, htr⟩ := h5
      refine ⟨htr.symm, ?_, ?_, ?_, ?_⟩
      · intro hfg
        unfold builtinFgBranch
        rw [h4]
        simp [hfg]
      · intro hnfg pr0 prs hpr
        unfold builtinFgBranch
        rw [h4]
        have : (job.state == STSHJobState.kForeground) = false := by simpa using hnfg
        simp only [this, Bool.false_eq_true, if_neg, not_false_eq_true]
        rw [hpr]
      · rw [← hjl2]; exact fgWaitLoop_ok_some events _ jlr hw
      · rw [← htr]
        rw [List.all_eq_true]
        intro x hx
        rcases List.mem_cons.mp hx with hx0 | hxtail
        · rw [hx0]; rfl
        rcases List.mem_append.mp hxtail with hx1 | hx2
        · have hk := builtinFgBranch_kills jl (atoi a)
          rw [List.all_eq_true] at hk
          have := hk x hx1
          cases x <;> simp_all [Action.isKill, Action.isTcsetpgrp]
        · rw [List.mem_singleton.mp hx2]
          rfl

theorem C2_witness :
    (STSHJobList.mk []).hasForegroundJob = false
    ∧ fgTraceC2.all (fun act => !(act.isTcsetpgrp)) = true := by
  have h := C2_fg_behaviour jlOneBg fgPipe1 [[(100, WStatus.exited 0)]] "1" []
    { num := 1, state := STSHJobState.kBackground, processes := [prRun 100] }
    ⟨[]⟩ fgTraceC2 rfl (by decide) (by decide) rfl rfl
  exact ⟨h.2.2.2.1, h.2.2.2.2⟩

/-! The slay/halt/cont builtins and bg. -/

/-- C7: slay, halt and cont are dispatched with SIGINT, SIGTSTP and
SIGCONT respectively (last conjunct); a single argument is a literal pid
that must be tracked by the job list (else the no-such-process failure),
and two arguments are a job id (unknown id: no-such-job failure) and a
zero-based index into the process sequence of that job (out of range,
including negative after the size_t conversion: index failure); on
success exactly the resolved pid is sent the signal. -/
theorem C7_slay_halt_cont :
    (∀ (jl : STSHJobList) (p : pipeline) (a name : String) (sig : Int),
        firstTokens p = [a] → jl.containsProcess (atoi a) = false →
        builtinSignals jl p name sig = .error ("No process with pid " ++ toString (atoi a)))
    ∧ (∀ (jl : STSHJobList) (p : pipeline) (a name : String) (sig : Int),
        firstTokens p = [a] → jl.containsProcess (atoi a) = true →
        builtinSignals jl p name sig = .ok [Action.kill (atoi a) sig])
    ∧ (∀ (jl : STSHJobList) (p : pipeline) (a b : String) (rest : List String) (name : String) (sig : Int),
        firstTokens p = a :: b :: rest → jl.containsJob (atoi a) = false →
        builtinSignals jl p name sig = .error ("No job with id " ++ toString (atoi a)))
    ∧ (∀ (jl : STSHJobList) (p : pipeline) (a b : String) (rest : List String) (job : STSHJob)
        (name : String) (sig : Int),
        firstTokens p = a :: b :: rest → jl.getJob (atoi a) = some job →
        (atoi b < 0 ∨ (job.processes.length : Int) ≤ atoi b) →
        builtinSignals jl p name sig =
          .error ("Job " ++ toString (atoi a) ++ "doesn\x27t have a pid at index " ++ toString (atoi b)))
    ∧ (∀ (jl : STSHJobList) (p : pipeline) (a b : String) (rest : List String) (job : STSHJob)
        (pr : STSHProcess) (name : String) (sig : Int),
        firstTokens p = a :: b :: rest → jl.getJob (atoi a) = some job →
        0 ≤ atoi b → job.processes.get? (atoi b).toNat = some pr →
        builtinSignals jl p name sig = .ok [Action.kill pr.pid sig])
    ∧ (∀ (jl : STSHJobList) (p : pipeline) (c : command) (crest : List command),
        p.commands = c :: crest →
        (c.command = "slay" → handleBuiltinSignals jl p = some (builtinSignals jl p "slay" SIGINT))
        ∧ (c.command = "halt" → handleBuiltinSignals jl p = some (builtinSignals jl p "halt" SIGTSTP))
        ∧ (c.command = "cont" → handleBuiltinSignals jl p = some (builtinSignals jl p "cont" SIGCONT))) := by
  refine ⟨?_, ?_, ?_, ?_, ?_, ?_⟩
  · intro jl p a name sig htoks hc
    simp [builtinSignals, htoks, hc]
  · intro jl p a name sig htoks hc
    simp [builtinSignals, htoks, hc]
  · intro jl p a b rest name sig htoks hc
    simp [builtinSignals, htoks, hc]
  · intro jl p a b rest job name sig htoks hj hrange
    have hcj : jl.containsJob (atoi a) = true := containsJob_of_getJob_some hj
    simp [builtinSignals, htoks, hcj, hj, hrange]
  · intro jl p a b rest job pr name sig htoks hj hb hg
    have hcj : jl.containsJob (atoi a) = true := containsJob_of_getJob_some hj
    have hlt : (atoi b).toNat < job.processes.length := (List.get?_eq_some.mp hg).1
    have hblt : atoi b < (job.processes.length : Int) := by
      rw [← Int.toNat_of_nonneg hb]
      exact_mod_cast hlt
    have hrange : ¬ (atoi b < 0 ∨ (job.processes.length : Int) ≤ atoi b) := by omega
    have hmem : pr ∈ job.processes := List.get?_mem hg
    have hcp : job.containsProcess pr.pid = true := by
      unfold STSHJob.containsProcess
      rw [List.any_eq_true]
      exact ⟨pr, hmem, by simp⟩
    rw [List.get?_eq_getElem?] at hg
    simp [builtinSignals, htoks, hcj, hj, hrange, hg, hcp]
  · intro jl p c crest hcmds
    refine ⟨?_, ?_, ?_⟩ <;> intro hname <;> simp [handleBuiltinSignals, hcmds, hname]

theorem C7_witness :
    jlOneBg.containsProcess (atoi "100") = true
    ∧ builtinSignals jlOneBg slayPipe100 "slay" SIGINT = .ok [Action.kill (atoi "100") SIGINT] :=
  ⟨rfl, C7_slay_halt_cont.2.1 jlOneBg slayPipe100 "100" "slay" SIGINT rfl rfl⟩

/-- C8: bg with a valid job id sends SIGCONT to every member process of
the job individually, returns the job list completely unchanged (so the
scheduling class keeps its Background value), performs only kill actions
(no blocking, no waiting, no terminal-ownership transfer). -/
theorem C8_bg_builtin (jl : STSHJobList) (p : pipeline) (a : String) (rest : List String)
    (job : STSHJob)
    (h1 : firstTokens p = a :: rest) (h2 : a ≠ "0") (h3 : atoi a ≠ 0)
    (h4 : jl.getJob (atoi a) = some job) :
    builtinBg jl p = .ok (jl, job.processes.map (fun pr => Action.kill pr.pid SIGCONT))
    ∧ (job.processes.map (fun pr => Action.kill pr.pid SIGCONT)).all (fun act => act.isKill) = true := by
  have hz : (a == "0") = false := by simpa using h2
  have hjz : (atoi a == 0) = false := by simpa using h3
  have hcj : jl.containsJob (atoi a) = true := containsJob_of_getJob_some h4
  constructor
  · simp [builtinBg, h1, hz, hjz, hcj, h4]
  · rw [List.all_eq_true]
    intro act hact
    obtain ⟨pr, _, hpr⟩ := List.mem_map.mp hact
    rw [← hpr]
    rfl

theorem C8_witness :
    builtinBg jlOneBg bgPipe1 = .ok (jlOneBg, [Action.kill 100 SIGCONT]) :=
  (C8_bg_builtin jlOneBg bgPipe1 "1" []
    { num := 1, state := STSHJobState.kBackground, processes := [prRun 100] }
    rfl (by decide) (by decide) rfl).1

/-! The fg/bg argument diagnostics. -/

/-- C10 counterexample: the diagnostic of bg for a missing argument reads
"Usage: bg <jobid>." -- it names bg, not fg as the claim asserts. -/
theorem C10_counterexample :
    builtinBg (STSHJobList.mk []) bgPipeNoArg = .error "Usage: bg <jobid>."
    ∧ "Usage: bg <jobid>." ≠ "Usage: fg <jobid>." :=
  ⟨rfl, by decide⟩

/-- C10 amended: for both fg and bg the literal argument string "0" is
reported as the No-such-job error "fg 0: No such job.", and every other
argument whose atoi value is 0 is reported as the usage error; the
diagnostics of bg for a non-numeric argument, an unknown job id and the
literal "0" all name fg, while its missing-argument diagnostic names bg. -/
theorem C10_zero_and_bg_diagnostics :
    (∀ (jl : STSHJobList) (p : pipeline) (ev : List (List (Int × WStatus))) (a : String)
        (rest : List String), firstTokens p = a :: rest → a = "0" →
        builtinFg jl p ev = .error "fg 0: No such job.")
    ∧ (∀ (jl : STSHJobList) (p : pipeline) (ev : List (List (Int × WStatus))) (a : String)
        (rest : List String), firstTokens p = a :: rest → a ≠ "0" → atoi a = 0 →
        builtinFg jl p ev = .error "Usage: fg <jobid>.")
    ∧ (∀ (jl : STSHJobList) (p : pipeline), firstTokens p = [] →
        builtinBg jl p = .error "Usage: bg <jobid>.")
    ∧ (∀ (jl : STSHJobList) (p : pipeline) (a : String) (rest : List String),
        firstTokens p = a :: rest → a = "0" → builtinBg jl p = .error "fg 0: No such job.")
    ∧ (∀ (jl : STSHJobList) (p : pipeline) (a : String) (rest : List String),
        firstTokens p = a :: rest → a ≠ "0" → atoi a = 0 →
        builtinBg jl p = .error "Usage: fg <jobid>.")
    ∧ (∀ (jl : STSHJobList) (p : pipeline) (a : String) (rest : List String),
        firstTokens p = a :: rest → a ≠ "0" → atoi a ≠ 0 → jl.containsJob (atoi a) = false →
        builtinBg jl p = .error ("fg " ++ toString (atoi a) ++ ": No such job.")) := by
  refine ⟨?_, ?_, ?_, ?_, ?_, ?_⟩
  · intro jl p ev a rest htoks h0
    simp [builtinFg, htoks, h0]
  · intro jl p ev a rest htoks h0 hz
    have hz0 : (a == "0") = false := by simpa using h0
    simp [builtinFg, htoks, hz0, hz]
  · intro jl p htoks
    simp [builtinBg, htoks]
  · intro jl p a rest htoks h0
    simp [builtinBg, htoks, h0]
  · intro jl p a rest htoks h0 hz
    have hz0 : (a == "0") = false := by simpa using h0
    simp [builtinBg, htoks, hz0, hz]
  · intro jl p a rest htoks h0 hz hcj
    have hz0 : (a == "0") = false := by simpa using h0
    have hjz : (atoi a == 0) = false := by simpa using hz
    simp [builtinBg, htoks, hz0, hjz, hcj]

theorem C10_witness :
    builtinBg jlOneBg { commands := [{ command := "bg", tokens := ["00"] }] } =
      .error "Usage: fg <jobid>." :=
  C10_zero_and_bg_diagnostics.2.2.2.2.1 jlOneBg
    { commands := [{ command := "bg", tokens := ["00"] }] } "00" [] rfl (by decide) (by decide)

/-! The foreground invariant.  Reaping never changes the id or the
scheduling class of a surviving job: the job signatures of the result are
a sublist of the original signatures. -/

theorem setProcessStateInJobs_sig (pid : Int) (st : STSHProcessState) :
    ∀ l : List STSHJob, (setProcessStateInJobs pid st l).map jobSig = l.map jobSig := by
  intro l
  induction l with
  | nil => rfl
  | cons j rest ih =>
    unfold setProcessStateInJobs
    cases h : j.containsProcess pid <;> simp [h, ih, jobSig, STSHJob.setProcessState]

theorem synchronize_jobs_sublist (jl : STSHJobList) (num : Nat) :
    (jl.synchronize num).jobs.Sublist jl.jobs := by
  unfold STSHJobList.synchronize
  cases h : jl.jobs.find? (fun j => j.num == num) with
  | none => exact List.Sublist.refl _
  | some j =>
    by_cases ht : j.allTerminated = true
    · simp only [ht, if_pos]
      exact List.filter_sublist _
    · simp only [ht, if_neg, Bool.false_eq_true, not_false_eq_true]
      exact List.Sublist.refl _

theorem reaperSpecStep_sig_sublist (jl : STSHJobList) (e : Int × WStatus) :
    ((reaperSpecStep jl e).jobs.map jobSig).Sublist (jl.jobs.map jobSig) := by
  unfold reaperSpecStep
  cases hg : jl.getJobWithProcess e.1 with
  | none => exact List.Sublist.refl _
  | some job =>
    have hsub := (synchronize_jobs_sublist (jl.setProcessState e.1 (specTransition e.2)) job.num).map jobSig
    have hsig : (jl.setProcessState e.1 (specTransition e.2)).jobs.map jobSig = jl.jobs.map jobSig :=
      setProcessStateInJobs_sig e.1 (specTransition e.2) jl.jobs
    rw [hsig] at hsub
    exact hsub

theorem handleStatus_sig_sublist {jl jl1 : STSHJobList} {pid : Int} {st : WStatus}
    (h : handleStatus jl pid st = .ok jl1) :
    (jl1.jobs.map jobSig).Sublist (jl.jobs.map jobSig) := by
  rw [handleStatus_ok h]
  exact reaperSpecStep_sig_sublist jl (pid, st)

theorem sigchildHandler_sig_sublist : ∀ (b : List (Int × WStatus)) (jl jl1 : STSHJobList),
    sigchildHandler jl b = .ok jl1 → (jl1.jobs.map jobSig).Sublist (jl.jobs.map jobSig) := by
  intro b
  induction b with
  | nil =>
    intro jl jl1 h
    cases h
    exact List.Sublist.refl _
  | cons e rest ih =>
    intro jl jl1 h
    obtain ⟨pid, st⟩ := e
    unfold sigchildHandler at h
    by_cases hp : pid ≤ 0
    · rw [if_pos hp] at h
      cases h
      exact List.Sublist.refl _
    · rw [if_neg hp] at h
      cases hh : handleStatus jl pid st with
      | error e2 => rw [hh] at h; cases h
      | ok jlm =>
        rw [hh] at h
        exact (ih jlm jl1 h).trans (handleStatus_sig_sublist hh)

theorem fgCount_eq_countP_sig (jl : STSHJobList) :
    fgCount jl = (jl.jobs.map jobSig).countP (fun pr => pr.2 == STSHJobState.kForeground) := by
  unfold fgCount
  rw [List.countP_map]
  rfl

theorem reap_fgCount_le {b : List (Int × WStatus)} {jl jl1 : STSHJobList}
    (h : sigchildHandler jl b = .ok jl1) : fgCount jl1 ≤ fgCount jl := by
  rw [fgCount_eq_countP_sig, fgCount_eq_countP_sig]
  exact (sigchildHandler_sig_sublist b jl jl1 h).countP_le _

theorem reap_nodupNums {b : List (Int × WStatus)} {jl jl1 : STSHJobList}
    (h : sigchildHandler jl b = .ok jl1) (hn : nodupNums jl) : nodupNums jl1 := by
  unfold nodupNums at hn ⊢
  have hs := (sigchildHandler_sig_sublist b jl jl1 h).map Prod.fst
  rw [List.map_map, List.map_map] at hs
  exact List.Nodup.sublist hs hn

theorem reap_fgOnly {b : List (Int × WStatus)} {jl jl1 : STSHJobList} {n : Nat}
    (h : sigchildHandler jl b = .ok jl1)
    (hfg : ∀ j ∈ jl.jobs, j.state = STSHJobState.kForeground → j.num = n) :
    ∀ j ∈ jl1.jobs, j.state = STSHJobState.kForeground → j.num = n := by
  intro j hj hstate
  have hin : jobSig j ∈ jl1.jobs.map jobSig := List.mem_map.mpr ⟨j, hj, rfl⟩
  have hmem := (sigchildHandler_sig_sublist b jl jl1 h).subset hin
  obtain ⟨j0, hj0, hsig⟩ := List.mem_map.mp hmem
  have hnum : j0.num = j.num := congrArg Prod.fst hsig
  have hst : j0.state = j.state := congrArg Prod.snd hsig
  rw [← hnum]
  exact hfg j0 hj0 (hst.trans hstate)

/-! Promotion by the fg builtin: setting one job Foreground in a list with
distinct ids and no foreground job yields at most one foreground job. -/

theorem setJobStateInJobs_nums (num : Nat) (st : STSHJobState) :
    ∀ l : List STSHJob, (setJobStateInJobs num st l).map (fun j => j.num) = l.map (fun j => j.num) := by
  intro l
  induction l with
  | nil => rfl
  | cons j rest ih =>
    unfold setJobStateInJobs
    cases h : (j.num == num) <;> simp [h, ih]

theorem setJobStateInJobs_id (num : Nat) (st : STSHJobState) :
    ∀ l : List STSHJob, (∀ j ∈ l, j.num ≠ num) → setJobStateInJobs num st l = l := by
  intro l
  induction l with
  | nil => intro _; rfl
  | cons j rest ih =>
    intro h
    unfold setJobStateInJobs
    have hj : (j.num == num) = false := by simpa using h j (List.mem_cons_self j rest)
    rw [hj]
    simp only [Bool.false_eq_true, if_neg, not_false_eq_true]
    rw [ih (fun k hk => h k (List.mem_cons_of_mem j hk))]

theorem countP_promote_le (num : Nat) :
    ∀ l : List STSHJob, (l.map (fun j => j.num)).Nodup →
    l.countP (fun j => j.state == STSHJobState.kForeground) = 0 →
    (setJobStateInJobs num STSHJobState.kForeground l).countP
      (fun j => j.state == STSHJobState.kForeground) ≤ 1 := by
  intro l
  induction l with
  | nil => intro _ _; simp [setJobStateInJobs]
  | cons j rest ih =>
    intro hnd hz
    rw [List.map_cons, List.nodup_cons] at hnd
    rw [List.countP_cons] at hz
    have hrest0 : rest.countP (fun j => j.state == STSHJobState.kForeground) = 0 := by omega
    have hjfg : ((fun j => j.state == STSHJobState.kForeground) j) = false := by
      by_contra hb
      rw [Bool.not_eq_false] at hb
      rw [if_pos hb] at hz
      omega
    unfold setJobStateInJobs
    cases hm : (j.num == num) with
    | true =>
      have hnum : j.num = num := by simpa using hm
      have htail : setJobStateInJobs num STSHJobState.kForeground rest = rest := by
        apply setJobStateInJobs_id
        intro k hk hkeq
        exact hnd.1 (List.mem_map.mpr ⟨k, hk, by rw [hkeq, hnum]⟩)
      rw [if_pos rfl]
      rw [List.countP_cons, htail, hrest0]
      simp
    | false =>
      simp only [hm, Bool.false_eq_true, if_neg, not_false_eq_true]
      rw [List.countP_cons]
      have hjfg2 : (j.state == STSHJobState.kForeground) = false := hjfg
      have hih := ih hnd.2 hrest0
      simp only [hjfg2, Bool.false_eq_true, if_neg, not_false_eq_true]
      omega

/-! Fresh id allocation: the allocated id is positive and unused. -/

theorem freshNum_spec (jl : STSHJobList) :
    jl.freshNum ≠ 0 ∧ jl.usedNum jl.freshNum = false := by
  unfold STSHJobList.freshNum
  cases hc : (List.range (jl.jobs.length + 2)).filter (fun n => n != 0 && !(jl.usedNum n)) with
  | nil =>
    exfalso
    rw [List.filter_eq_nil_iff] at hc
    have hall : ∀ m, m < jl.jobs.length + 2 → m ≠ 0 → jl.usedNum m = true := by
      intro m hm hm0
      have := hc m (List.mem_range.mpr hm)
      simp only [Bool.and_eq_true, bne_iff_ne, ne_eq, Bool.not_eq_true'] at this
      by_contra hb
      rw [Bool.not_eq_true] at hb
      exact this ⟨hm0, hb⟩
    have hsubset : (List.range (jl.jobs.length + 1)).map Nat.succ ⊆ jl.jobs.map (fun j => j.num) := by
      intro m hm
      obtain ⟨k, hk, hkm⟩ := List.mem_map.mp hm
      have hklt := List.mem_range.mp hk
      have hused : jl.usedNum m = true := by
        apply hall m (by omega) (by omega)
      unfold STSHJobList.usedNum at hused
      rw [List.any_eq_true] at hused
      obtain ⟨j, hj, hjm⟩ := hused
      exact List.mem_map.mpr ⟨j, hj, by simpa using hjm⟩
    have hnd : ((List.range (jl.jobs.length + 1)).map Nat.succ).Nodup :=
      (List.nodup_range _).map (fun a b => Nat.succ.inj)
    have hle := (List.Nodup.subperm hnd hsubset).length_le
    simp at hle
  | cons x xs =>
    have hx : x ∈ (List.range (jl.jobs.length + 2)).filter (fun n => n != 0 && !(jl.usedNum n)) := by
      rw [hc]
      exact List.mem_cons_self x xs
    have hp := (List.mem_filter.mp hx).2
    simp only [Bool.and_eq_true, bne_iff_ne, ne_eq, Bool.not_eq_true'] at hp
    exact ⟨hp.1, hp.2⟩

/-! Job creation: the signatures after createJobSync are the old
signatures plus the new job, with a fresh id. -/

theorem addProcess_sig (jl : STSHJobList) (num : Nat) (pr : STSHProcess) :
    (jl.addProcess num pr).jobs.map jobSig = jl.jobs.map jobSig := by
  unfold STSHJobList.addProcess
  rw [List.map_map]
  apply List.map_congr_left
  intro j _
  by_cases h : j.num = num <;> simp [h, jobSig]

theorem addProcessList_sig : ∀ (cps : List (command × Int)) (jl : STSHJobList) (num : Nat),
    (addProcessList jl num cps).jobs.map jobSig = jl.jobs.map jobSig := by
  intro cps
  induction cps with
  | nil => intro jl num; rfl
  | cons cp rest ih =>
    intro jl num
    obtain ⟨c, pid⟩ := cp
    unfold addProcessList
    rw [ih, addProcess_sig]

theorem createJobSync_fst_sig (jl : STSHJobList) (p : pipeline) (pids : List Int) :
    (createJobSync jl p pids).1.jobs.map jobSig = jl.jobs.map jobSig
      ++ [((createJobSync jl p pids).2,
          if p.background then STSHJobState.kBackground else STSHJobState.kForeground)] := by
  unfold createJobSync
  rw [addProcessList_sig]
  unfold STSHJobList.addJob
  simp [jobSig]

theorem createJobSync_snd (jl : STSHJobList) (p : pipeline) (pids : List Int) :
    (createJobSync jl p pids).2 = jl.freshNum :=
  rfl

theorem createJobSync_sig {jl jl1 : STSHJobList} {p : pipeline} {pids : List Int} {n : Nat}
    (h : createJobSync jl p pids = (jl1, n)) :
    jl1.jobs.map jobSig = jl.jobs.map jobSig
        ++ [(n, if p.background then STSHJobState.kBackground else STSHJobState.kForeground)]
    ∧ n = jl.freshNum := by
  have hfst := createJobSync_fst_sig jl p pids
  have hsnd := createJobSync_snd jl p pids
  rw [h] at hfst hsnd
  exact ⟨hfst, hsnd⟩

theorem createJob_invariants {jl jl1 : STSHJobList} {p : pipeline} {pids : List Int} {n : Nat}
    (hc : createJobSync jl p pids = (jl1, n)) (hz : fgCount jl = 0) (hnd : nodupNums jl) :
    nodupNums jl1
    ∧ fgCount jl1 = (if p.background then 0 else 1)
    ∧ (∀ j ∈ jl1.jobs, j.state = STSHJobState.kForeground → j.num = n) := by
  obtain ⟨hsig, hfresh⟩ := createJobSync_sig hc
  have hnums : jl1.jobs.map (fun j => j.num) = jl.jobs.map (fun j => j.num) ++ [n] := by
    have h2 := congrArg (List.map Prod.fst) hsig
    rw [List.map_map, List.map_append, List.map_map] at h2
    simpa using h2
  have hfreshspec := freshNum_spec jl
  have hnotmem : n ∉ jl.jobs.map (fun j => j.num) := by
    intro hmem
    obtain ⟨j, hj, hjn⟩ := List.mem_map.mp hmem
    have : jl.usedNum n = true := by
      unfold STSHJobList.usedNum
      rw [List.any_eq_true]
      exact ⟨j, hj, by simpa using hjn⟩
    rw [hfresh] at this
    rw [hfreshspec.2] at this
    cases this
  refine ⟨?_, ?_, ?_⟩
  · unfold nodupNums
    rw [hnums]
    simp [List.nodup_append, hnd, hnotmem]
    exact hnd
  · rw [fgCount_eq_countP_sig, hsig, List.countP_append]
    have hz2 : (jl.jobs.map jobSig).countP (fun pr => pr.2 == STSHJobState.kForeground) = 0 := by
      rw [← fgCount_eq_countP_sig]
      exact hz
    rw [hz2]
    by_cases hb : p.background = true <;> simp [hb]
  · intro j hj hstate
    have hin : jobSig j ∈ jl1.jobs.map jobSig := List.mem_map.mpr ⟨j, hj, rfl⟩
    rw [hsig] at hin
    rcases List.mem_append.mp hin with hold | hnew
    · exfalso
      obtain ⟨j0, hj0, hsig0⟩ := List.mem_map.mp hold
      have hst : j0.state = j.state := congrArg Prod.snd hsig0
      have : fgCount jl ≠ 0 := by
        unfold fgCount
        intro hzz
        rw [List.countP_eq_zero] at hzz
        exact hzz j0 hj0 (by simp [hst, hstate])
      exact this hz
    · have : jobSig j = (n, if p.background then STSHJobState.kBackground else STSHJobState.kForeground) :=
        List.mem_singleton.mp hnew
      exact congrArg Prod.fst this

/-! Remaining step lemmas for the shell transition system. -/

theorem fgNum_of_fgOnly {jl : STSHJobList} {n : Nat}
    (hfg : ∀ j ∈ jl.jobs, j.state = STSHJobState.kForeground → j.num = n)
    (hhas : jl.hasForegroundJob = true) : fgNum jl = some n := by
  unfold STSHJobList.hasForegroundJob at hhas
  rw [List.any_eq_true] at hhas
  obtain ⟨j, hj, hstate⟩ := hhas
  cases hg : jl.getForegroundJob with
  | none =>
    exfalso
    unfold STSHJobList.getForegroundJob at hg
    rw [List.find?_eq_none] at hg
    exact (hg j hj) hstate
  | some j0 =>
    unfold fgNum
    rw [hg]
    simp [hfg j0 (getForegroundJob_mem hg) (getForegroundJob_state hg)]

theorem hasFg_false_fgCount {jl : STSHJobList} (h : jl.hasForegroundJob = false) :
    fgCount jl = 0 := by
  unfold STSHJobList.hasForegroundJob at h
  rw [List.any_eq_false] at h
  unfold fgCount
  rw [List.countP_eq_zero]
  exact h

theorem builtinBg_ok_id {jl : STSHJobList} {p : pipeline} {r : STSHJobList × List Action}
    (h : builtinBg jl p = .ok r) : r.1 = jl := by
  unfold builtinBg at h
  split at h
  · cases h
  · split at h
    · cases h
    · split at h
      · cases h
      · split at h
        · cases h
        · split at h
          · cases h
          · cases h
            rfl

theorem builtinFgBranch_fst_inv {jl : STSHJobList} (jobid : Int)
    (hz : fgCount jl = 0) (hnd : nodupNums jl) :
    fgCount (builtinFgBranch jl jobid).1 ≤ 1 ∧ nodupNums (builtinFgBranch jl jobid).1 := by
  unfold builtinFgBranch
  cases jl.getJob jobid with
  | none => exact ⟨by change fgCount jl ≤ 1; omega, hnd⟩
  | some job =>
    by_cases hst : (job.state == STSHJobState.kForeground) = true
    · simp only [hst, if_pos]
      exact ⟨by change fgCount jl ≤ 1; omega, hnd⟩
    · simp only [hst, if_neg, Bool.false_eq_true, not_false_eq_true]
      cases job.processes with
      | nil => exact ⟨by change fgCount jl ≤ 1; omega, hnd⟩
      | cons pr0 prs =>
        refine ⟨countP_promote_le job.num jl.jobs hnd hz, ?_⟩
        show nodupNums (jl.setJobState job.num STSHJobState.kForeground)
        unfold nodupNums STSHJobList.setJobState
        rw [setJobStateInJobs_nums]
        exact hnd

theorem countP_fg_le_one : ∀ (l : List STSHJob) (n : Nat), (l.map (fun j => j.num)).Nodup →
    (∀ j ∈ l, j.state = STSHJobState.kForeground → j.num = n) →
    l.countP (fun j => j.state == STSHJobState.kForeground) ≤ 1 := by
  intro l
  induction l with
  | nil => intro n _ _; simp
  | cons j rest ih =>
    intro n hnd hfg
    rw [List.map_cons, List.nodup_cons] at hnd
    rw [List.countP_cons]
    by_cases hj : j.state = STSHJobState.kForeground
    · have hn : j.num = n := hfg j (List.mem_cons_self j rest) hj
      have hrest : rest.countP (fun j => j.state == STSHJobState.kForeground) = 0 := by
        rw [List.countP_eq_zero]
        intro k hk hkfg
        have hkst : k.state = STSHJobState.kForeground := by simpa using hkfg
        have hkn : k.num = n := hfg k (List.mem_cons_of_mem j hk) hkst
        exact hnd.1 (List.mem_map.mpr ⟨k, hk, by rw [hkn, hn]⟩)
      have hjb : ((fun j => j.state == STSHJobState.kForeground) j) = true := by simpa using hj
      rw [hrest]
      simp [hjb]
    · have hjb : (j.state == STSHJobState.kForeground) = false := by simpa using hj
      have hih := ih n hnd.2 (fun k hk => hfg k (List.mem_cons_of_mem j hk))
      simp only [hjb, Bool.false_eq_true, if_neg, not_false_eq_true]
      omega

theorem shellInv_step {s s1 : ShellState} (hs : ShellStep s s1) (hinv : shellInv s) :
    shellInv s1 := by
  cases hs with
  | reapPrompt jl b jl1 h =>
    obtain ⟨hz, hnd⟩ := hinv
    refine ⟨?_, reap_nodupNums h hnd⟩
    have := reap_fgCount_le h
    omega
  | launchBg jl p pids jl1 n hbg hc =>
    obtain ⟨hz, hnd⟩ := hinv
    obtain ⟨hnd1, hcnt, _⟩ := createJob_invariants hc hz hnd
    refine ⟨?_, hnd1⟩
    rw [hcnt, hbg]
    simp
  | launchFg jl p pids jl1 n hbg hc =>
    obtain ⟨hz, hnd⟩ := hinv
    obtain ⟨hnd1, _, honly⟩ := createJob_invariants hc hz hnd
    exact ⟨honly, hnd1⟩
  | launchWaitReap jl n b jl1 h =>
    obtain ⟨honly, hnd⟩ := hinv
    exact ⟨reap_fgOnly h honly, reap_nodupNums h hnd⟩
  | launchWaitExit jl n hcond =>
    obtain ⟨honly, hnd⟩ := hinv
    refine ⟨?_, hnd⟩
    cases hh : jl.hasForegroundJob with
    | true => exact absurd ⟨hh, fgNum_of_fgOnly honly hh⟩ hcond
    | false => exact hasFg_false_fgCount hh
  | fgStart jl jobid hc =>
    obtain ⟨hz, hnd⟩ := hinv
    exact builtinFgBranch_fst_inv jobid hz hnd
  | fgWaitReap jl b jl1 h =>
    obtain ⟨hle, hnd⟩ := hinv
    refine ⟨?_, reap_nodupNums h hnd⟩
    have := reap_fgCount_le h
    omega
  | fgWaitExit jl h =>
    obtain ⟨_, hnd⟩ := hinv
    exact ⟨hasFg_false_fgCount h, hnd⟩
  | bgRun jl p jl1 acts h =>
    have hid : jl1 = jl := builtinBg_ok_id h
    rw [hid]
    exact hinv

theorem shellInv_reachable {s : ShellState} (h : ShellReachable s) : shellInv s := by
  induction h with
  | init => exact ⟨rfl, List.nodup_nil⟩
  | step s s1 hr hstep ih => exact shellInv_step hstep ih

/-- C3: every state the shell can reach -- at the prompt, inside the
launcher wait, or inside the fg-builtin wait, with the SIGCHLD reaper, the
pipeline launcher, and the fg/bg builtins freely interleaved -- has at
most one job of scheduling class Foreground; in particular every pipeline
launch and every fg promotion preserves the invariant. -/
theorem C3_at_most_one_foreground (s : ShellState) (h : ShellReachable s) :
    atMostOneForeground s.jl := by
  have hinv := shellInv_reachable h
  obtain ⟨jl, phase⟩ := s
  cases phase with
  | atPrompt =>
    show fgCount jl ≤ 1
    have := hinv.1
    omega
  | inLaunchWait n =>
    exact countP_fg_le_one jl.jobs n hinv.2 hinv.1
  | inFgWait =>
    exact hinv.1

theorem C3_witness : atMostOneForeground jlFg42 :=
  C3_at_most_one_foreground ⟨jlFg42, ShellPhase.inLaunchWait 1⟩
    (ShellReachable.step _ _ ShellReachable.init
      (ShellStep.launchFg ⟨[]⟩ pipeSleep [42] jlFg42 1 rfl rfl))

end Stsh
